import Mathlib

/-!
Shallow embedding of the show-finder event-ingestion pipeline.

Sources embedded here:
* `src/database.py` — `sanitize_table_name`, `save_events` (SQLite upsert layer);
* `src/ra_club_scraper.py` — `parse_events` (structured-API adapter / normalizer);
* `src/v0/venue_tracker.py` — `Event`, `Event.event_id`, `scrape_h0l0`,
  `scrape_wonderville`, and the dedup loop of `main`.

Modelling conventions:
* Python `str` is Lean `String`; machine-level 32-bit arithmetic inside MD5 is
  `Nat` with explicit `% 2 ^ 32`.
* Library calls that are not repository code are given faithful executable
  models: `hashlib.md5(...).hexdigest()` is a full MD5 implementation over the
  UTF-8 bytes of the input, `re.sub` / `re.search` on the concrete patterns the
  repository uses are modelled as dedicated scanning functions, and
  BeautifulSoup tree traversal is modelled by passing the adapter the list of
  extracted node views (anchor href, parent block text, first heading text)
  that the Python code reads off the parsed tree.  The conditionals, regexes,
  defaults and string surgery — the repository's own logic — are translated
  statement by statement.
* `requests.get`/parse failures are modelled by giving each adapter an
  `Except` input: the `.error` case corresponds to an exception raised while
  fetching or parsing, which the Python `try/except` converts into returning
  the (still empty) accumulator list.
* Python `str.lower()` is modelled on its ASCII behaviour (all strings the
  pipeline handles here are ASCII); `dict.get(k, d)` on an absent key is
  `Option.getD`.
-/

/-! ## Character and string helpers (models of Python string/regex primitives) -/

/-- ASCII lower-casing of a single character, modelling Python `str.lower()`
on ASCII input. -/
def asciiToLower (c : Char) : Char :=
  if 'A' ≤ c ∧ c ≤ 'Z' then Char.ofNat (c.toNat + 32) else c

/-- Membership in the character class `[a-z0-9]` of `re.sub(r'[^a-z0-9]+', '_', ·)`. -/
def isLowerAlnum (c : Char) : Bool :=
  ('a' ≤ c && c ≤ 'z') || ('0' ≤ c && c ≤ '9')

/-- Worker for `collapseRuns`: the flag records whether we are inside a
non-`[a-z0-9]` run whose single replacement underscore was already emitted. -/
def collapseGo : Bool → List Char → List Char
  | _, [] => []
  | inRun, c :: cs =>
    if isLowerAlnum c then c :: collapseGo false cs
    else if inRun then collapseGo inRun cs
    else '_' :: collapseGo true cs

/-- Model of `re.sub(r'[^a-z0-9]+', '_', name)`: every maximal run of
characters outside `[a-z0-9]` is replaced by a single underscore. -/
def collapseRuns (l : List Char) : List Char :=
  collapseGo false l

/-- Character test for the underscore being stripped by `name.strip('_')`. -/
def isUS (c : Char) : Bool := c = '_'

/-- Remove trailing underscores (the right half of Python `str.strip('_')`). -/
def dropTrailingUS (l : List Char) : List Char :=
  (l.reverse.dropWhile isUS).reverse

/-- Model of Python `name.strip('_')`: remove leading and trailing
underscores (the two sides are independent, so the order is immaterial). -/
def stripUS (l : List Char) : List Char :=
  (dropTrailingUS l).dropWhile isUS

/-- Model of `src/database.py::sanitize_table_name` without the final
namespace prefix: `venue_name.lower()`, then
`re.sub(r'[^a-z0-9]+', '_', name)`, then `name.strip('_')`. -/
def sanitizeBody (venue_name : String) : List Char :=
  stripUS (collapseRuns (venue_name.data.map asciiToLower))

/-- Model of `src/database.py::sanitize_table_name`:
lowercase, collapse non-alphanumeric runs to `_`, strip edge underscores,
and prepend the namespace token, as in the Python `f"events_{name}"`. -/
def sanitize_table_name (venue_name : String) : String :=
  "events_" ++ String.mk (sanitizeBody venue_name)

/-- Characters admissible in a sanitized table name: lowercase ASCII
letters, digits, and the underscore separator. -/
def isTableNameChar (c : Char) : Bool :=
  isLowerAlnum c || isUS c

/-- Two adjacent characters are not both underscores: the output of the
run-collapsing substitution never contains `__`. -/
def noUS2 (a b : Char) : Prop := ¬(a = '_' ∧ b = '_')

/-- The first character, when present, is not an underscore. -/
def headOK (l : List Char) : Prop := ∀ d, l.head? = some d → d ≠ '_'

/-- The last character, when present, is not an underscore. -/
def lastOK (l : List Char) : Prop := ∀ d, l.getLast? = some d → d ≠ '_'

/-- Model of Python substring `list`-membership: does `pat` occur as a
contiguous substring of `l`? (`'/event/' in href`). -/
def startsWithL (pat l : List Char) : Bool :=
  match pat, l with
  | [], _ => true
  | _ :: _, [] => false
  | p :: ps, c :: cs => p = c && startsWithL ps cs

/-- Contiguous-substring search over character lists. -/
def containsL (pat : List Char) : List Char → Bool
  | [] => pat = []
  | c :: cs => startsWithL pat (c :: cs) || containsL pat cs

/-- Model of the Python expression `pat in s` on strings. -/
def strContains (s pat : String) : Bool :=
  containsL pat.data s.data

/-- Model of the Python expression `s.startswith(pat)`. -/
def strStartsWith (s pat : String) : Bool :=
  startsWithL pat.data s.data

/-- Model of Python string slicing `s[:n]` (by code points). -/
def pySlice (s : String) (n : Nat) : String :=
  String.mk (s.data.take n)

/-- ASCII lower-casing of a whole string, modelling `s.lower()`. -/
def strLower (s : String) : String :=
  String.mk (s.data.map asciiToLower)

/-! ## MD5 (model of `hashlib.md5(key.encode()).hexdigest()`)

The repository derives event identities with Python's `hashlib.md5` over the
UTF-8 encoding of the key string.  The algorithm (RFC 1321) is implemented
here over `Nat` with explicit reduction modulo `2 ^ 32`. -/

/-- UTF-8 encoding of one code point, as a list of byte values. -/
def utf8Bytes (c : Char) : List Nat :=
  let n := c.toNat
  if n < 128 then [n]
  else if n < 2048 then
    [192 ||| (n >>> 6), 128 ||| (n &&& 63)]
  else if n < 65536 then
    [224 ||| (n >>> 12), 128 ||| ((n >>> 6) &&& 63), 128 ||| (n &&& 63)]
  else
    [240 ||| (n >>> 18), 128 ||| ((n >>> 12) &&& 63),
     128 ||| ((n >>> 6) &&& 63), 128 ||| (n &&& 63)]

/-- UTF-8 encoding of a string (model of Python `key.encode()`). -/
def strUtf8 (s : String) : List Nat :=
  s.data.flatMap utf8Bytes

/-- Little-endian byte decomposition of a number into `count` bytes. -/
def leBytes (n : Nat) : Nat → List Nat
  | 0 => []
  | k + 1 => (n % 256) :: leBytes (n / 256) k

/-- MD5 padding: append `0x80`, zero-pad to 56 mod 64 bytes, then append the
original bit length as a 64-bit little-endian quantity. -/
def md5Pad (msg : List Nat) : List Nat :=
  msg ++ [128] ++ List.replicate ((119 - msg.length % 64) % 64) 0
      ++ leBytes ((8 * msg.length) % 2 ^ 64) 8

/-- Group bytes into little-endian 32-bit words. -/
def bytesToWords : List Nat → List Nat
  | b0 :: b1 :: b2 :: b3 :: rest =>
    (b0 + 256 * b1 + 65536 * b2 + 16777216 * b3) :: bytesToWords rest
  | _ => []

/-- Bitwise complement within 32 bits. -/
def not32 (a : Nat) : Nat := Nat.xor a 4294967295

/-- Left rotation within 32 bits. -/
def rotl32 (x s : Nat) : Nat :=
  ((x <<< s) ||| (x >>> (32 - s))) % 2 ^ 32

/-- The MD5 round functions F, G, H, I selected by round index. -/
def md5F (i b c d : Nat) : Nat :=
  if i < 16 then (b &&& c) ||| (not32 b &&& d)
  else if i < 32 then (d &&& b) ||| (not32 d &&& c)
  else if i < 48 then Nat.xor (Nat.xor b c) d
  else Nat.xor c (b ||| not32 d)

/-- The MD5 message-word schedule. -/
def md5G (i : Nat) : Nat :=
  if i < 16 then i
  else if i < 32 then (5 * i + 1) % 16
  else if i < 48 then (3 * i + 5) % 16
  else (7 * i) % 16

/-- The 64 MD5 sine-derived constants of RFC 1321. -/
def md5K : List Nat :=
  [0xd76aa478, 0xe8c7b756, 0x242070db, 0xc1bdceee,
   0xf57c0faf, 0x4787c62a, 0xa8304613, 0xfd469501,
   0x698098d8, 0x8b44f7af, 0xffff5bb1, 0x895cd7be,
   0x6b901122, 0xfd987193, 0xa679438e, 0x49b40821,
   0xf61e2562, 0xc040b340, 0x265e5a51, 0xe9b6c7aa,
   0xd62f105d, 0x02441453, 0xd8a1e681, 0xe7d3fbc8,
   0x21e1cde6, 0xc33707d6, 0xf4d50d87, 0x455a14ed,
   0xa9e3e905, 0xfcefa3f8, 0x676f02d9, 0x8d2a4c8a,
   0xfffa3942, 0x8771f681, 0x6d9d6122, 0xfde5380c,
   0xa4beea44, 0x4bdecfa9, 0xf6bb4b60, 0xbebfbc70,
   0x289b7ec6, 0xeaa127fa, 0xd4ef3085, 0x04881d05,
   0xd9d4d039, 0xe6db99e5, 0x1fa27cf8, 0xc4ac5665,
   0xf4292244, 0x432aff97, 0xab9423a7, 0xfc93a039,
   0x655b59c3, 0x8f0ccc92, 0xffeff47d, 0x85845dd1,
   0x6fa87e4f, 0xfe2ce6e0, 0xa3014314, 0x4e0811a1,
   0xf7537e82, 0xbd3af235, 0x2ad7d2bb, 0xeb86d391]

/-- The 64 MD5 per-round left-rotation amounts. -/
def md5S : List Nat :=
  [7, 12, 17, 22, 7, 12, 17, 22, 7, 12, 17, 22, 7, 12, 17, 22,
   5, 9, 14, 20, 5, 9, 14, 20, 5, 9, 14, 20, 5, 9, 14, 20,
   4, 11, 16, 23, 4, 11, 16, 23, 4, 11, 16, 23, 4, 11, 16, 23,
   6, 10, 15, 21, 6, 10, 15, 21, 6, 10, 15, 21, 6, 10, 15, 21]

/-- One MD5 round applied to the state quadruple. -/
def md5Step (M : List Nat) (st : Nat × Nat × Nat × Nat) (i : Nat) :
    Nat × Nat × Nat × Nat :=
  let a := st.1
  let b := st.2.1
  let c := st.2.2.1
  let d := st.2.2.2
  let f := (md5F i b c d + a + md5K.getD i 0 + M.getD (md5G i) 0) % 2 ^ 32
  (d, (b + rotl32 f (md5S.getD i 0)) % 2 ^ 32, b, c)

/-- The MD5 compression function on one 16-word block. -/
def md5Compress (st : Nat × Nat × Nat × Nat) (M : List Nat) :
    Nat × Nat × Nat × Nat :=
  let r := (List.range 64).foldl (md5Step M) st
  ((st.1 + r.1) % 2 ^ 32, (st.2.1 + r.2.1) % 2 ^ 32,
   (st.2.2.1 + r.2.2.1) % 2 ^ 32, (st.2.2.2 + r.2.2.2) % 2 ^ 32)

/-- Process the padded message block by block; the fuel argument is the
number of 16-word blocks remaining. -/
def md5Loop : Nat → Nat × Nat × Nat × Nat → List Nat → Nat × Nat × Nat × Nat
  | 0, st, _ => st
  | k + 1, st, ws => md5Loop k (md5Compress st (ws.take 16)) (ws.drop 16)

/-- One hexadecimal digit character. -/
def hexDigit (n : Nat) : Char :=
  if n < 10 then Char.ofNat (48 + n) else Char.ofNat (87 + n)

/-- Two lowercase hex digits of one byte. -/
def byteHex (b : Nat) : List Char :=
  [hexDigit (b / 16), hexDigit (b % 16)]

/-- Hex rendering of one 32-bit word, little-endian byte order as in
`hexdigest()`. -/
def wordHexLE (w : Nat) : List Char :=
  (leBytes w 4).flatMap byteHex

/-- Model of `hashlib.md5(s.encode()).hexdigest()`. -/
def md5Hex (s : String) : String :=
  let bytes := md5Pad (strUtf8 s)
  let ws := bytesToWords bytes
  let r := md5Loop (ws.length / 16)
    (0x67452301, 0xefcdab89, 0x98badcfe, 0x10325476) ws
  String.mk (wordHexLE r.1 ++ wordHexLE r.2.1 ++ wordHexLE r.2.2.1
    ++ wordHexLE r.2.2.2)

/-! ## Canonical `Event` and derived identity (`src/v0/venue_tracker.py`) -/

/-- Model of the `Event` dataclass of `src/v0/venue_tracker.py`. -/
structure Event where
  venue : String
  title : String
  date : String
  url : Option String := none
  time : Option String := none
  deriving DecidableEq

/-- The pipe-joined key string `f"{self.venue}|{self.title}|{self.date}"`
hashed by `Event.event_id`. -/
def Event.dedupKey (e : Event) : String :=
  e.venue ++ "|" ++ e.title ++ "|" ++ e.date

/-- Model of `Event.event_id`:
`hashlib.md5(key.encode()).hexdigest()` over the pipe-joined key. -/
def Event.event_id (e : Event) : String :=
  md5Hex e.dedupKey

/-! ## Date-pattern models

The markup adapters search their block text with
`re.search(r'(Jan|...|Dec)[,\s]+\d{1,2}', text)` (H0L0) and
`re.search(r'(Jan|...|Dec)[,\s]*\d{1,2}', text)` (Wonderville).  The scan
below mirrors `re.search` semantics on these concrete patterns: positions are
tried left to right, month alternatives in listed order, the separator class
greedily, then one or two ASCII digits; `group(0)` (the matched text) is
returned. -/

/-- The month-name alternatives, in the order they appear in the patterns. -/
def months : List String :=
  ["Jan", "Feb", "Mar", "Apr", "May", "Jun",
   "Jul", "Aug", "Sep", "Oct", "Nov", "Dec"]

/-- The character class `[,\s]` (ASCII whitespace and comma). -/
def isSepChar (c : Char) : Bool :=
  c = ',' || c = ' ' || c = '\t' || c = '\n' || c = '\r' || c = '\x0b' || c = '\x0c'

/-- The character class `\d` on ASCII digits. -/
def isDigitChar (c : Char) : Bool :=
  '0' ≤ c && c ≤ '9'

/-- Try the month/day pattern anchored at the current position; `needSep`
selects between the `[,\s]+` (H0L0) and `[,\s]*` (Wonderville) variants. -/
def matchMonthDateAt (needSep : Bool) (cs : List Char) : Option (List Char) :=
  months.findSome? (fun m =>
    if startsWithL m.data cs then
      let rest := cs.drop m.data.length
      let seps := rest.takeWhile isSepChar
      if needSep && seps.isEmpty then none
      else
        let digs := ((rest.drop seps.length).takeWhile isDigitChar).take 2
        if digs.isEmpty then none else some (m.data ++ seps ++ digs)
    else none)

/-- Leftmost-match scan of the month/day pattern, as in `re.search`. -/
def findMonthDate (needSep : Bool) : List Char → Option (List Char)
  | [] => none
  | c :: cs =>
    match matchMonthDateAt needSep (c :: cs) with
    | some r => some r
    | none => findMonthDate needSep cs

/-- The H0L0 date search:
`re.search(r'(Jan|Feb|Mar|Apr|May|Jun|Jul|Aug|Sep|Oct|Nov|Dec)[,\s]+\d{1,2}', text)`. -/
def findH0l0Date (text : String) : Option String :=
  (findMonthDate true text.data).map String.mk

/-- The Wonderville date search (same months, `[,\s]*` separator). -/
def findWondervilleDate (text : String) : Option String :=
  (findMonthDate false text.data).map String.mk

/-! ## Markup adapters (`scrape_h0l0`, `scrape_wonderville`)

BeautifulSoup tree traversal is not repository code; an adapter input is the
list of node views the Python loop reads off the parsed tree.  For H0L0 each
element of the list stands for one `<a href=...>` found by
`soup.find_all('a', href=True)`, carrying the href, and — when
`link.find_parent(['div', 'article', 'section'])` finds a container — that
container's `get_text(' ', strip=True)` and the text of its first
`h6/h5/h4/h3/strong` element when one exists.  The `.error` case of the
`Except` input stands for an exception raised by the fetch or the parser,
which the adapter's `try/except` turns into returning the still-empty
accumulator. -/

/-- The parent container view of an H0L0 event anchor. -/
structure H0l0Block where
  text : String
  titleText : Option String
  deriving DecidableEq

/-- One anchor found by `soup.find_all('a', href=True)` on the H0L0 page. -/
structure H0l0Anchor where
  href : String
  parent : Option H0l0Block
  deriving DecidableEq

/-- The loop body of `scrape_h0l0` for one anchor: emits at most one event,
mirroring the nested `if`/`match`es of the Python loop. -/
def h0l0EventOfAnchor (a : H0l0Anchor) : List Event :=
  if strContains a.href "/event/" then
    match a.parent with
    | some parent =>
      match parent.titleText with
      | some title =>
        let date_str :=
          match findH0l0Date parent.text with
          | some d => d
          | none => "TBD"
        [{ venue := "H0L0", title := title, date := date_str,
           url := some (if strStartsWith a.href "/" then "https://h0l0.nyc" ++ a.href
                        else a.href) }]
      | none => []
    | none => []
  else []

/-- Model of `src/v0/venue_tracker.py::scrape_h0l0`. -/
def scrape_h0l0 : Except String (List H0l0Anchor) → List Event
  | .error _ => []
  | .ok anchors => anchors.flatMap h0l0EventOfAnchor

/-- One candidate item of the Wonderville page: the views read by the loop
body (`get_text`, first `h1/h2/h3/a` text, text of a `date|time`-classed
element when present, first `a[href]` when present). -/
structure WItem where
  text : String
  titleText : Option String
  dateElemText : Option String
  linkHref : Option String
  deriving DecidableEq

/-- The loop body of `scrape_wonderville` for one item. -/
def wondervilleEventOfItem (it : WItem) : List Event :=
  match it.titleText with
  | none => []
  | some title =>
    if title == "" || strLower title == "wonderville" || strLower title == "events" then
      []
    else
      let date_text := it.dateElemText.getD ""
      let date_str :=
        match findWondervilleDate it.text with
        | some d => d
        | none => if date_text == "" then "TBD" else date_text
      let url :=
        match it.linkHref with
        | some h => some (if strStartsWith h "/" then "https://www.wonderville.nyc" ++ h
                          else h)
        | none => none
      [{ venue := "Wonderville", title := pySlice title 100, date := date_str,
         url := url }]

/-- Model of `src/v0/venue_tracker.py::scrape_wonderville`. -/
def scrape_wonderville : Except String (List WItem) → List Event
  | .error _ => []
  | .ok items => items.flatMap wondervilleEventOfItem

/-! ## Structured-API adapter (`src/ra_club_scraper.py::parse_events`)

The GraphQL response is modelled by optional-field records: `none` stands for
an absent key, read through `dict.get` with its documented default. -/

/-- One entry of the `artists` list of a raw API event. -/
structure RawArtist where
  name : Option String
  deriving DecidableEq

/-- The optional `pick` sub-object of a raw API event. -/
structure RawPick where
  blurb : Option String
  deriving DecidableEq

/-- One raw event object of the API response. -/
structure RawEvent where
  id : Option String
  title : Option String
  date : Option String
  startTime : Option String
  endTime : Option String
  contentUrl : Option String
  flyerFront : Option String
  artists : Option (List RawArtist)
  pick : Option RawPick
  deriving DecidableEq

/-- The `data.venue` record of the API response. -/
structure RAVenue where
  name : Option String
  address : Option String
  events : Option (List RawEvent)
  deriving DecidableEq

/-- The API response: `data.venue` is `none` when the queried venue record
is absent (`{"data": {"venue": null}}`). -/
structure RAResponse where
  venue : Option RAVenue
  deriving DecidableEq

/-- The normalized record built by the loop body of `parse_events`. -/
structure RAEvent where
  event_id : Option String
  title : Option String
  date : Option String
  start_time : Option String
  end_time : Option String
  venue : String
  venue_address : String
  performers : String
  description : String
  url : String
  flyer_url : String
  deriving DecidableEq

/-- Python truthiness of an optional string (`None` and `""` are falsy). -/
def truthyStr : Option String → Bool
  | some s => !(s == "")
  | none => false

/-- The loop body of `parse_events` for one raw event: artist-name joining,
pick-blurb default, absolute-URL construction, and `dict.get` defaults,
statement by statement. -/
def normalizeRAEvent (venue_name venue_address : String) (e : RawEvent) : RAEvent :=
  let artists := e.artists.getD []
  let artist_names := String.intercalate ", "
    ((artists.filter (fun a => truthyStr a.name)).map (fun a => a.name.getD ""))
  let description :=
    match e.pick with
    | some p =>
      match p.blurb with
      | some b => if b == "" then "" else b
      | none => ""
    | none => ""
  { event_id := e.id
    title := e.title
    date := e.date
    start_time := e.startTime
    end_time := e.endTime
    venue := venue_name
    venue_address := venue_address
    performers := artist_names
    description := description
    url := if truthyStr e.contentUrl then "https://ra.co" ++ e.contentUrl.getD ""
           else ""
    flyer_url := e.flyerFront.getD "" }

/-- Model of `src/ra_club_scraper.py::parse_events`. -/
def parse_events (response_data : RAResponse) : List RAEvent :=
  match response_data.venue with
  | none => []
  | some venue_data =>
    let venue_name := venue_data.name.getD ""
    let venue_address := venue_data.address.getD ""
    (venue_data.events.getD []).map (normalizeRAEvent venue_name venue_address)

/-! ## Persistence layer (`src/database.py::save_events`)

The SQLite database is modelled as an association list from table name to
table contents; a table is the list of its rows.  `INSERT OR REPLACE` on a
`TEXT PRIMARY KEY` deletes the row with the same non-NULL key before
inserting; SQLite treats NULL keys as pairwise distinct, so a row whose
`event_id` is NULL conflicts with nothing.  The `datetime.now().isoformat()`
persistence clock is the explicit `now` argument. -/

/-- One input row of the DataFrame handed to `save_events`: the values
`row.get(col)` reads for the eleven data columns, plus any `updated_at`
value the input happens to carry (which `save_events` overwrites). -/
structure InRow where
  event_id : Option String
  title : Option String
  date : Option String
  start_time : Option String
  end_time : Option String
  venue : Option String
  venue_address : Option String
  performers : Option String
  description : Option String
  url : Option String
  flyer_url : Option String
  updated_at : Option String
  deriving DecidableEq

/-- One stored row: the same columns with `updated_at` stamped at
persistence time. -/
structure DbRow where
  event_id : Option String
  title : Option String
  date : Option String
  start_time : Option String
  end_time : Option String
  venue : Option String
  venue_address : Option String
  performers : Option String
  description : Option String
  url : Option String
  flyer_url : Option String
  updated_at : String
  deriving DecidableEq

/-- The column assignment `pd_events['updated_at'] = datetime.now().isoformat()`. -/
def stampRow (now : String) (r : InRow) : DbRow :=
  { event_id := r.event_id, title := r.title, date := r.date,
    start_time := r.start_time, end_time := r.end_time, venue := r.venue,
    venue_address := r.venue_address, performers := r.performers,
    description := r.description, url := r.url, flyer_url := r.flyer_url,
    updated_at := now }

/-- `INSERT OR REPLACE` of one row into one table, keyed on the
`event_id TEXT PRIMARY KEY` column. -/
def insertOrReplace (t : List DbRow) (r : DbRow) : List DbRow :=
  match r.event_id with
  | none => t ++ [r]
  | some i => t.filter (fun q => !(q.event_id == some i)) ++ [r]

/-- The modelled SQLite database file: table name to table contents. -/
abbrev Database := List (String × List DbRow)

/-- Look a table up by name. -/
def dbLookup : Database → String → Option (List DbRow)
  | [], _ => none
  | (m, u) :: rest, name => if m == name then some u else dbLookup rest name

/-- Store a table under a name, creating it when absent. -/
def dbSet : Database → String → List DbRow → Database
  | [], name, t => [(name, t)]
  | (m, u) :: rest, name, t =>
    if m == name then (m, t) :: rest else (m, u) :: dbSet rest name t

/-- Model of `src/database.py::save_events`: the `pd_events.empty` early
return, table-name derivation, `CREATE TABLE IF NOT EXISTS`, the
`updated_at` stamp, and the `INSERT OR REPLACE ... executemany` over the
rows in order. -/
def save_events (now : String) (pd_events : List InRow) (db : Database)
    (venue_name : String) : Database :=
  if pd_events.isEmpty then db
  else
    let table_name := sanitize_table_name venue_name
    let table := (dbLookup db table_name).getD []
    let table := (pd_events.map (stampRow now)).foldl insertOrReplace table
    dbSet db table_name table

/-! ## Dedup loop of `src/v0/venue_tracker.py::main`

`main` loads the seen-identity set, scrapes, then runs
`for event in all_events: if event.event_id() not in seen_ids:
new_events.append(event); seen_ids.add(event_id)` and finally persists
`seen_ids` with `save_seen_events`.  The set is modelled as the list of its
members; the pair returned by `runDedup` is (the `new_events` report, the
set handed to `save_seen_events` at the end of the run). -/

/-- The filtering loop of `main`, carrying the `new_events` accumulator and
the mutable `seen_ids` set. -/
def dedupLoop : List Event → List Event → List String → List Event × List String
  | [], new_events, seen_ids => (new_events, seen_ids)
  | e :: rest, new_events, seen_ids =>
    if e.event_id ∈ seen_ids then dedupLoop rest new_events seen_ids
    else dedupLoop rest (new_events ++ [e]) (e.event_id :: seen_ids)

/-- One run's dedup pass: starts from the loaded seen set and an empty
`new_events` report. -/
def runDedup (seen_ids : List String) (all_events : List Event) :
    List Event × List String :=
  dedupLoop all_events [] seen_ids

/-! ## Sample inputs used to exercise the normalizer theorems -/

/-- A raw API event carrying only required fields: every optional
sub-object (`artists`, `pick`, `contentUrl`, `flyerFront`, times) is
absent. -/
def rawEventBare : RawEvent :=
  { id := some "e1", title := some "T", date := some "2026-01-01",
    startTime := none, endTime := none, contentUrl := none,
    flyerFront := none, artists := none, pick := none }

/-- A raw API event whose `contentUrl` is a relative path. -/
def rawEventRelUrl : RawEvent :=
  { id := some "e2", title := some "T2", date := some "2026-01-02",
    startTime := none, endTime := none, contentUrl := some "/events/2100",
    flyerFront := none, artists := none, pick := none }

/-- A venue record holding the bare sample event. -/
def sampleVenue : RAVenue :=
  { name := some "Nowadays", address := some "56-06 Cooper Ave",
    events := some [rawEventBare] }

/-- A response whose venue record is present. -/
def sampleResponse : RAResponse := { venue := some sampleVenue }

/-! # Verification

Helper lemmas come first, then one theorem per specification claim, each
with its witness or counterexample where applicable. -/

/-! ## Helper lemmas -/

theorem dbLookup_dbSet_self (db : Database) (name : String) (t : List DbRow) :
    dbLookup (dbSet db name t) name = some t := by
  induction db with
  | nil => simp [dbSet, dbLookup]
  | cons p rest ih =>
    obtain ⟨m, u⟩ := p
    by_cases h : m == name
    · simp [dbSet, dbLookup, h]
    · simp [dbSet, dbLookup, h, ih]

theorem stampRow_event_id (now : String) (r : InRow) :
    (stampRow now r).event_id = r.event_id := rfl

/-! ## C9: empty input is a persistence no-op -/

/-- Claim C9: calling `save_events` with an empty events collection is a
no-op — it raises no error and neither creates a table nor writes any row
or timestamp to the store (the database value is returned unchanged; the
Python function prints its report and returns before touching the
connection). -/
theorem c9_save_events_empty_noop (now : String) (db : Database)
    (venue_name : String) : save_events now [] db venue_name = db := rfl

/-! ## C1: derived identity -/

/-- Claim C1 (counterexample): the derived identity is *not* injective on
the (venue, title, date) triple.  The pipe-joined key admits collisions
when a field contains the separator: the events (venue `a|b`, title `c`)
and (venue `a`, title `b|c`) with the same date differ in venue and title
yet hash to the same identity string. -/
theorem c1_event_id_collision :
    Event.event_id { venue := "a|b", title := "c", date := "d" } =
      Event.event_id { venue := "a", title := "b|c", date := "d" } ∧
    ({ venue := "a|b", title := "c", date := "d" } : Event).venue ≠
      ({ venue := "a", title := "b|c", date := "d" } : Event).venue ∧
    ({ venue := "a|b", title := "c", date := "d" } : Event).title ≠
      ({ venue := "a", title := "b|c", date := "d" } : Event).title :=
  ⟨congrArg md5Hex (by decide), by decide, by decide⟩

/-- Claim C1 (amended): `Event.event_id` is a pure function of the ordered
triple (venue, title, date): any two events agreeing on those three fields
(whatever their url and time fields) get equal identity strings.  The
converse direction of the original claim fails: events differing in one of
the three fields can still collide when a field contains the `|`
separator. -/
theorem c1_event_id_pure (e1 e2 : Event) (hv : e1.venue = e2.venue)
    (ht : e1.title = e2.title) (hd : e1.date = e2.date) :
    e1.event_id = e2.event_id := by
  unfold Event.event_id Event.dedupKey
  rw [hv, ht, hd]

theorem c1_event_id_pure_witness :
    Event.event_id { venue := "H0L0", title := "SHOW", date := "Jan 15" } =
      Event.event_id { venue := "H0L0", title := "SHOW", date := "Jan 15",
                       url := some "https://h0l0.nyc/event/x", time := some "10pm" } :=
  c1_event_id_pure _ _ rfl rfl rfl

/-! ## C4: adapter error behaviour -/

/-- Claim C4: on a fetch or parse error each modelled adapter returns the
empty list rather than raising past its boundary, and the structured-API
parser treats an absent venue record (`data.venue` null) as a valid
zero-result outcome. -/
theorem c4_error_boundary (err : String) (r : RAResponse) :
    scrape_h0l0 (Except.error err) = [] ∧
    scrape_wonderville (Except.error err) = [] ∧
    (r.venue = none → parse_events r = []) := by
  refine ⟨rfl, rfl, fun h => ?_⟩
  simp [parse_events, h]

theorem c4_error_boundary_witness :
    scrape_h0l0 (Except.error "ConnectTimeout") = [] ∧
    scrape_wonderville (Except.error "ConnectTimeout") = [] ∧
    parse_events { venue := none } = [] :=
  ⟨(c4_error_boundary "ConnectTimeout" { venue := none }).1,
   (c4_error_boundary "ConnectTimeout" { venue := none }).2.1,
   (c4_error_boundary "ConnectTimeout" { venue := none }).2.2 rfl⟩

/-! ## C8: seen-set monotonicity -/

theorem dedupLoop_seen_mono (es : List Event) :
    ∀ (new_events : List Event) (seen : List String) (x : String),
      x ∈ seen → x ∈ (dedupLoop es new_events seen).2 := by
  induction es with
  | nil => intro new_events seen x hx; simpa [dedupLoop] using hx
  | cons e rest ih =>
    intro new_events seen x hx
    by_cases h : e.event_id ∈ seen
    · simpa only [dedupLoop, if_pos h] using ih new_events seen x hx
    · simpa only [dedupLoop, if_neg h] using
        ih (new_events ++ [e]) (e.event_id :: seen) x (List.mem_cons_of_mem _ hx)

theorem dedupLoop_sees_all (es : List Event) :
    ∀ (new_events : List Event) (seen : List String) (e : Event),
      e ∈ es → e.event_id ∈ (dedupLoop es new_events seen).2 := by
  induction es with
  | nil => intro _ _ e he; cases he
  | cons e rest ih =>
    intro new_events seen e' he'
    rcases List.mem_cons.mp he' with he' | he'
    · subst he'
      by_cases h : e'.event_id ∈ seen
      · simpa only [dedupLoop, if_pos h] using dedupLoop_seen_mono rest _ _ _ h
      · simpa only [dedupLoop, if_neg h] using
          dedupLoop_seen_mono rest (new_events ++ [e']) (e'.event_id :: seen)
            e'.event_id (List.mem_cons_self _ _)
    · by_cases h : e.event_id ∈ seen
      · simpa only [dedupLoop, if_pos h] using ih new_events seen e' he'
      · simpa only [dedupLoop, if_neg h] using
          ih (new_events ++ [e]) (e.event_id :: seen) e' he'

theorem dedupLoop_new_sound (es : List Event) :
    ∀ (new_events : List Event) (seen : List String) (e' : Event),
      e' ∈ (dedupLoop es new_events seen).1 →
      e' ∈ new_events ∨ e'.event_id ∉ seen := by
  induction es with
  | nil => intro new_events seen e' he'; exact Or.inl (by simpa [dedupLoop] using he')
  | cons e rest ih =>
    intro new_events seen e' he'
    by_cases h : e.event_id ∈ seen
    · rw [dedupLoop, if_pos h] at he'
      exact ih new_events seen e' he'
    · rw [dedupLoop, if_neg h] at he'
      rcases ih _ _ e' he' with hn | hs
      · rcases List.mem_append.mp hn with hn | hn
        · exact Or.inl hn
        · rw [List.mem_singleton] at hn
          subst hn
          exact Or.inr h
      · exact Or.inr fun hx => hs (List.mem_cons_of_mem _ hx)

/-- Claim C8: within a run the seen-identities set only grows — the set
handed to `save_seen_events` at the end of the run contains every loaded
identity and the identity of every event observed during the run — and an
event whose identity was already a member of the loaded set never appears
in the `new_events` report. -/
theorem c8_seen_set_monotone (seen0 : List String) (events : List Event) :
    (∀ x ∈ seen0, x ∈ (runDedup seen0 events).2) ∧
    (∀ e ∈ events, e.event_id ∈ (runDedup seen0 events).2) ∧
    (∀ e' ∈ (runDedup seen0 events).1, e'.event_id ∉ seen0) := by
  refine ⟨fun x hx => dedupLoop_seen_mono events [] seen0 x hx,
          fun e he => dedupLoop_sees_all events [] seen0 e he,
          fun e' he' => ?_⟩
  rcases dedupLoop_new_sound events [] seen0 e' he' with hn | hs
  · cases hn
  · exact hs

set_option maxRecDepth 100000 in
theorem c8_seen_set_monotone_witness :
    ("a1b2" ∈ (runDedup ["a1b2"] [{ venue := "V", title := "T", date := "D" }]).2) ∧
    (Event.event_id { venue := "V", title := "T", date := "D" } ∈
      (runDedup ["a1b2"] [{ venue := "V", title := "T", date := "D" }]).2) ∧
    (Event.event_id { venue := "V", title := "T", date := "D" } ∉ (["a1b2"] : List String)) :=
  ⟨(c8_seen_set_monotone ["a1b2"] [{ venue := "V", title := "T", date := "D" }]).1
      "a1b2" (by decide),
   (c8_seen_set_monotone ["a1b2"] [{ venue := "V", title := "T", date := "D" }]).2.1
      { venue := "V", title := "T", date := "D" } (by decide),
   (c8_seen_set_monotone ["a1b2"] [{ venue := "V", title := "T", date := "D" }]).2.2
      { venue := "V", title := "T", date := "D" } (by decide)⟩

/-! ## C3: upsert idempotence and persistence-time stamping -/

/-- Claim C3: persisting the same event row twice via `save_events` leaves
exactly one stored row for its `event_id` in the venue's table; that row is
the fully replaced image of the second save, and its `updated_at` is the
persistence-time clock of the most recent save — never any `updated_at`
value carried by the input. -/
theorem c3_upsert_idempotent (db : Database) (venue_name now1 now2 : String)
    (e : InRow) (i : String) (hid : e.event_id = some i) :
    ((dbLookup (save_events now2 [e] (save_events now1 [e] db venue_name) venue_name)
        (sanitize_table_name venue_name)).getD []).countP
      (fun r => r.event_id == some i) = 1 ∧
    (∀ r ∈ (dbLookup (save_events now2 [e] (save_events now1 [e] db venue_name) venue_name)
        (sanitize_table_name venue_name)).getD [],
      r.event_id = some i → r = stampRow now2 e ∧ r.updated_at = now2) := by
  have hs : ∀ (now : String) (d : Database),
      save_events now [e] d venue_name =
        dbSet d (sanitize_table_name venue_name)
          (insertOrReplace ((dbLookup d (sanitize_table_name venue_name)).getD [])
            (stampRow now e)) := by
    intro now d
    simp [save_events]
  rw [hs, hs, dbLookup_dbSet_self, dbLookup_dbSet_self]
  have hstamp : ∀ now : String, (stampRow now e).event_id = some i := fun _ => hid
  have hior : ∀ (t : List DbRow) (now : String),
      insertOrReplace t (stampRow now e) =
        t.filter (fun q => !(q.event_id == some i)) ++ [stampRow now e] := by
    intro t now
    rw [insertOrReplace, hstamp]
  simp only [Option.getD_some]
  rw [hior]
  constructor
  · rw [List.countP_append, List.countP_filter]
    have h0 : (List.countP
        (fun a => (a.event_id == some i) && !(a.event_id == some i))
        (insertOrReplace ((dbLookup db (sanitize_table_name venue_name)).getD [])
          (stampRow now1 e))) = 0 := by
      refine List.countP_eq_zero.mpr fun a _ => ?_
      simp
    rw [h0, List.countP_cons, List.countP_nil, hstamp]
    simp
  · intro r hr hrid
    rcases List.mem_append.mp hr with hr | hr
    · exfalso
      have := (List.mem_filter.mp hr).2
      rw [hrid] at this
      simp at this
    · rw [List.mem_singleton] at hr
      subst hr
      exact ⟨rfl, rfl⟩

theorem c3_upsert_idempotent_witness :
    ((dbLookup (save_events "2026-01-02T00:00:00"
        [{ event_id := some "ev1", title := some "B", date := none,
           start_time := none, end_time := none, venue := some "Nowadays",
           venue_address := none, performers := none, description := none,
           url := none, flyer_url := none, updated_at := some "2020-06-06T00:00:00" }]
        (save_events "2026-01-01T00:00:00"
          [{ event_id := some "ev1", title := some "B", date := none,
             start_time := none, end_time := none, venue := some "Nowadays",
             venue_address := none, performers := none, description := none,
             url := none, flyer_url := none, updated_at := some "2020-06-06T00:00:00" }]
          [] "Nowadays") "Nowadays")
        (sanitize_table_name "Nowadays")).getD []).countP
      (fun r => r.event_id == some "ev1") = 1 :=
  (c3_upsert_idempotent [] "Nowadays" "2026-01-01T00:00:00" "2026-01-02T00:00:00"
    { event_id := some "ev1", title := some "B", date := none,
      start_time := none, end_time := none, venue := some "Nowadays",
      venue_address := none, performers := none, description := none,
      url := none, flyer_url := none, updated_at := some "2020-06-06T00:00:00" }
    "ev1" rfl).1

/-! ## C6: missing-date handling -/

/-- Claim C6 (counterexample): the structured-API parser does *not* map a
missing date to the sentinel placeholder — a raw event without a `date`
key normalizes to an absent value, not to `"TBD"`. -/
theorem c6_missing_date_passthrough :
    (parse_events
      { venue := some ({ name := some "Nowadays",
                         address := some "56-06 Cooper Ave",
                         events := some [{ id := some "e1", title := some "T",
                                           date := none,
                                           startTime := none, endTime := none,
                                           contentUrl := none, flyerFront := none,
                                           artists := none, pick := none }] }) }).map
      RAEvent.date
      = [none] ∧
    (none : Option String) ≠ some "TBD" :=
  ⟨rfl, by decide⟩

/-- Claim C6 (amended): a markup-adapter event block whose text matches no
date pattern is still emitted, with its date set to the sentinel `"TBD"`;
the structured-API parser, by contrast, passes the raw `date` field through
unchanged, so a missing date stays an absent value rather than becoming the
sentinel. -/
theorem c6_date_sentinel (anchors : List H0l0Anchor) (a : H0l0Anchor)
    (ha : a ∈ anchors) (hev : strContains a.href "/event/" = true)
    (b : H0l0Block) (hp : a.parent = some b) (ttl : String)
    (ht : b.titleText = some ttl) (hd : findH0l0Date b.text = none)
    (vn va : String) (e : RawEvent) :
    ({ venue := "H0L0", title := ttl, date := "TBD",
       url := some (if strStartsWith a.href "/" then "https://h0l0.nyc" ++ a.href
                    else a.href) } : Event) ∈ scrape_h0l0 (Except.ok anchors) ∧
    (normalizeRAEvent vn va e).date = e.date := by
  constructor
  · show _ ∈ anchors.flatMap h0l0EventOfAnchor
    refine List.mem_flatMap.mpr ⟨a, ha, ?_⟩
    simp only [h0l0EventOfAnchor, hev, if_true, hp, ht, hd]
    exact List.mem_singleton.mpr rfl
  · rfl

theorem c6_date_sentinel_witness :
    ({ venue := "H0L0", title := "SHOW", date := "TBD",
       url := some "https://h0l0.nyc/event/x" } : Event)
      ∈ scrape_h0l0 (Except.ok
          [{ href := "/event/x",
             parent := some { text := "no date here", titleText := some "SHOW" } }]) ∧
    (normalizeRAEvent "N" "A"
      { id := some "e1", title := some "T", date := some "2026-01-01",
        startTime := none, endTime := none, contentUrl := none,
        flyerFront := none, artists := none, pick := none }).date
      = some "2026-01-01" :=
  c6_date_sentinel
    [{ href := "/event/x",
       parent := some { text := "no date here", titleText := some "SHOW" } }]
    { href := "/event/x",
      parent := some { text := "no date here", titleText := some "SHOW" } }
    (by decide) (by decide)
    { text := "no date here", titleText := some "SHOW" } rfl "SHOW" rfl (by decide)
    "N" "A"
    { id := some "e1", title := some "T", date := some "2026-01-01",
      startTime := none, endTime := none, contentUrl := none,
      flyerFront := none, artists := none, pick := none }

/-! ## C7: defensive title truncation -/

/-- Claim C7 (counterexample): not every markup adapter truncates long
titles — `scrape_h0l0` emits the heading text untruncated, so a block whose
heading has 101 characters yields an event whose title is longer than 100
characters. -/
theorem c7_h0l0_no_truncation :
    (scrape_h0l0 (Except.ok
        [{ href := "/event/x",
           parent := some { text := "t",
                            titleText := some (String.mk (List.replicate 101 'a')) } }])).map
        (fun e => e.title.length) = [101] ∧
    ¬ (101 ≤ 100) :=
  ⟨by decide, by decide⟩

theorem length_pySlice_le (s : String) (n : Nat) : (pySlice s n).length ≤ n := by
  show (s.data.take n).length ≤ n
  rw [List.length_take]
  exact min_le_left _ _

/-- Claim C7 (amended): the Wonderville markup adapter truncates titles to
the 100-character defensive cap — every event it emits has a title of at
most 100 characters — but the H0L0 markup adapter emits its heading text
untruncated, so the cap does not hold across all markup adapters. -/
theorem c7_wonderville_title_cap (fetch : Except String (List WItem))
    (e : Event) (he : e ∈ scrape_wonderville fetch) : e.title.length ≤ 100 := by
  cases fetch with
  | error err => simp [scrape_wonderville] at he
  | ok items =>
    rw [show scrape_wonderville (Except.ok items) = items.flatMap wondervilleEventOfItem
        from rfl] at he
    obtain ⟨it, -, hmem⟩ := List.mem_flatMap.mp he
    rcases hT : it.titleText with _ | title
    · simp only [wondervilleEventOfItem, hT] at hmem
      cases hmem
    · simp only [wondervilleEventOfItem, hT] at hmem
      by_cases hc : (title == "" || strLower title == "wonderville"
          || strLower title == "events") = true
      · rw [if_pos hc] at hmem
        cases hmem
      · rw [if_neg hc] at hmem
        rw [List.mem_singleton] at hmem
        subst hmem
        exact length_pySlice_le title 100

theorem c7_wonderville_title_cap_witness :
    (({ venue := "Wonderville", title := pySlice "Dance Night" 100,
        date := "Jan 5", url := none } : Event)).title.length ≤ 100 :=
  c7_wonderville_title_cap
    (Except.ok [{ text := "Jan 5 fun", titleText := some "Dance Night",
                  dateElemText := none, linkHref := none }])
    { venue := "Wonderville", title := pySlice "Dance Night" 100,
      date := "Jan 5", url := none }
    (by decide)

/-! ## C2 and C10: structure of the sanitized table name -/

theorem alnum_ne_us (c : Char) (h : isLowerAlnum c = true) : c ≠ '_' := by
  intro hc
  subst hc
  exact absurd h (by decide)

theorem noUS2_of_left (x y : Char) (hx : x ≠ '_') : noUS2 x y :=
  fun h => hx h.1

theorem noUS2_of_right (x y : Char) (hy : y ≠ '_') : noUS2 x y :=
  fun h => hy h.2

theorem collapseGo_cons_alnum (b : Bool) (c : Char) (cs : List Char)
    (h : isLowerAlnum c = true) :
    collapseGo b (c :: cs) = c :: collapseGo false cs := by
  simp [collapseGo, h]

theorem collapseGo_cons_other_false (c : Char) (cs : List Char)
    (h : isLowerAlnum c = false) :
    collapseGo false (c :: cs) = '_' :: collapseGo true cs := by
  simp [collapseGo, h]

theorem collapseGo_cons_other_true (c : Char) (cs : List Char)
    (h : isLowerAlnum c = false) :
    collapseGo true (c :: cs) = collapseGo true cs := by
  simp [collapseGo, h]

theorem mem_collapseGo (l : List Char) :
    ∀ (b : Bool) (c : Char), c ∈ collapseGo b l →
      isLowerAlnum c = true ∨ c = '_' := by
  induction l with
  | nil => intro b c h; simp [collapseGo] at h
  | cons d ds ih =>
    intro b c h
    by_cases hd : isLowerAlnum d = true
    · rw [collapseGo_cons_alnum b d ds hd] at h
      rcases List.mem_cons.mp h with rfl | h
      · exact Or.inl hd
      · exact ih false c h
    · have hd' : isLowerAlnum d = false := by
        rwa [Bool.not_eq_true] at hd
      cases b with
      | false =>
        rw [collapseGo_cons_other_false d ds hd'] at h
        rcases List.mem_cons.mp h with rfl | h
        · exact Or.inr rfl
        · exact ih true c h
      | true =>
        rw [collapseGo_cons_other_true d ds hd'] at h
        exact ih true c h

theorem collapseGo_chain (l : List Char) :
    List.Chain' noUS2 (collapseGo false l) ∧
    List.Chain' noUS2 (collapseGo true l) ∧ headOK (collapseGo true l) := by
  induction l with
  | nil =>
    refine ⟨List.chain'_nil, List.chain'_nil, ?_⟩
    intro d hd
    simp [collapseGo] at hd
  | cons d ds ih =>
    obtain ⟨ihf, iht, ihh⟩ := ih
    by_cases hd : isLowerAlnum d = true
    · have hchain : List.Chain' noUS2 (d :: collapseGo false ds) := by
        rw [List.chain'_cons']
        exact ⟨fun y _ => noUS2_of_left d y (alnum_ne_us d hd), ihf⟩
      refine ⟨?_, ?_, ?_⟩
      · rw [collapseGo_cons_alnum false d ds hd]
        exact hchain
      · rw [collapseGo_cons_alnum true d ds hd]
        exact hchain
      · rw [collapseGo_cons_alnum true d ds hd]
        intro y hy
        rw [List.head?_cons, Option.some_inj] at hy
        subst hy
        exact alnum_ne_us d hd
    · have hd' : isLowerAlnum d = false := by
        rwa [Bool.not_eq_true] at hd
      refine ⟨?_, ?_, ?_⟩
      · rw [collapseGo_cons_other_false d ds hd']
        rw [List.chain'_cons']
        refine ⟨fun y hy => noUS2_of_right '_' y ?_, iht⟩
        exact ihh y (Option.mem_def.mp hy)
      · rw [collapseGo_cons_other_true d ds hd']
        exact iht
      · rw [collapseGo_cons_other_true d ds hd']
        exact ihh

theorem collapseGo_fix (l : List Char)
    (hmem : ∀ c ∈ l, isLowerAlnum c = true ∨ c = '_')
    (hchain : List.Chain' noUS2 l) :
    collapseGo false l = l ∧ (headOK l → collapseGo true l = l) := by
  induction l with
  | nil => exact ⟨rfl, fun _ => rfl⟩
  | cons d ds ih =>
    have hmem' : ∀ c ∈ ds, isLowerAlnum c = true ∨ c = '_' :=
      fun c hc => hmem c (List.mem_cons_of_mem d hc)
    obtain ⟨ihf, iht⟩ := ih hmem' hchain.tail
    rcases hmem d (List.mem_cons_self d ds) with hd | hd
    · constructor
      · rw [collapseGo_cons_alnum false d ds hd, ihf]
      · intro _
        rw [collapseGo_cons_alnum true d ds hd, ihf]
    · subst hd
      have hus : isLowerAlnum '_' = false := by decide
      constructor
      · have hds : headOK ds := by
          intro y hy hy'
          have hn := (List.chain'_cons'.mp hchain).1 y (Option.mem_def.mpr hy)
          exact hn ⟨rfl, hy'⟩
        rw [collapseGo_cons_other_false '_' ds hus, iht hds]
      · intro hhead
        exact absurd rfl (hhead '_' List.head?_cons)

theorem chain'_dropWhile {α : Type} (R : α → α → Prop) (p : α → Bool)
    (l : List α) (h : List.Chain' R l) : List.Chain' R (l.dropWhile p) := by
  induction l with
  | nil => exact h
  | cons d ds ih =>
    by_cases hp : p d = true
    · rw [List.dropWhile_cons_of_pos hp]
      exact ih h.tail
    · rw [List.dropWhile_cons_of_neg hp]
      exact h

theorem headOK_dropWhile_us (l : List Char) : headOK (l.dropWhile isUS) := by
  induction l with
  | nil => intro d hd; simp at hd
  | cons c cs ih =>
    by_cases hc : isUS c = true
    · rw [List.dropWhile_cons_of_pos hc]
      exact ih
    · rw [List.dropWhile_cons_of_neg hc]
      intro d hd hne
      rw [List.head?_cons, Option.some_inj] at hd
      subst hd
      subst hne
      exact hc (by decide)

theorem getLast?_dropWhile_or (p : Char → Bool) (l : List Char) :
    l.dropWhile p = [] ∨ (l.dropWhile p).getLast? = l.getLast? := by
  induction l with
  | nil => exact Or.inl rfl
  | cons c cs ih =>
    by_cases hp : p c = true
    · rw [List.dropWhile_cons_of_pos hp]
      rcases hcs : cs with _ | ⟨d, ds⟩
      · exact Or.inl rfl
      · rw [← hcs]
        rcases ih with h | h
        · exact Or.inl h
        · right
          rw [h, hcs, List.getLast?_cons_cons]
    · rw [List.dropWhile_cons_of_neg hp]
      exact Or.inr rfl

theorem sanitizeBody_mem (v : String) :
    ∀ c ∈ sanitizeBody v, isLowerAlnum c = true ∨ c = '_' := by
  intro c hc
  have h1 : c ∈ dropTrailingUS (collapseRuns (v.data.map asciiToLower)) :=
    (List.dropWhile_sublist isUS).subset hc
  have h2 : c ∈ (collapseRuns (v.data.map asciiToLower)).reverse.dropWhile isUS :=
    List.mem_reverse.mp h1
  have h3 : c ∈ (collapseRuns (v.data.map asciiToLower)).reverse :=
    (List.dropWhile_sublist isUS).subset h2
  exact mem_collapseGo (v.data.map asciiToLower) false c (List.mem_reverse.mp h3)

theorem sanitizeBody_chain (v : String) : List.Chain' noUS2 (sanitizeBody v) := by
  refine chain'_dropWhile noUS2 isUS _ ?_
  show List.Chain' noUS2
    ((collapseRuns (v.data.map asciiToLower)).reverse.dropWhile isUS).reverse
  rw [List.chain'_reverse]
  refine chain'_dropWhile _ isUS _ ?_
  rw [List.chain'_reverse]
  exact (collapseGo_chain (v.data.map asciiToLower)).1

theorem sanitizeBody_headOK (v : String) : headOK (sanitizeBody v) :=
  headOK_dropWhile_us _

theorem sanitizeBody_lastOK (v : String) : lastOK (sanitizeBody v) := by
  intro d hd hne
  rcases getLast?_dropWhile_or isUS
      (dropTrailingUS (collapseRuns (v.data.map asciiToLower))) with h | h
  · have hnil : sanitizeBody v = [] := h
    rw [hnil] at hd
    simp at hd
  · have hd' : (dropTrailingUS (collapseRuns (v.data.map asciiToLower))).getLast?
        = some d := by
      rw [← h]
      exact hd
    have hd'' : ((collapseRuns (v.data.map asciiToLower)).reverse.dropWhile
        isUS).head? = some d := by
      rw [← List.getLast?_reverse]
      exact hd'
    exact headOK_dropWhile_us _ d hd'' hne

theorem asciiToLower_fixed (c : Char) (h : isLowerAlnum c = true ∨ c = '_') :
    asciiToLower c = c := by
  unfold asciiToLower
  rw [if_neg]
  rintro ⟨h1, h2⟩
  rcases h with h | h
  · rcases Bool.or_eq_true_iff.mp h with h' | h'
    · have ha := (Bool.and_eq_true_iff.mp h').1
      have : 'a' ≤ c := of_decide_eq_true ha
      exact absurd (le_trans this h2) (by decide)
    · have hb := (Bool.and_eq_true_iff.mp h').2
      have : c ≤ '9' := of_decide_eq_true hb
      exact absurd (le_trans h1 this) (by decide)
  · subst h
    exact absurd h2 (by decide)

theorem map_asciiToLower_fix (l : List Char)
    (h : ∀ c ∈ l, isLowerAlnum c = true ∨ c = '_') :
    l.map asciiToLower = l := by
  induction l with
  | nil => rfl
  | cons c cs ih =>
    rw [List.map_cons, asciiToLower_fixed c (h c (List.mem_cons_self c cs)),
        ih fun d hd => h d (List.mem_cons_of_mem c hd)]

theorem collapseGo_true_fix_of_sanitizeBody (v : String) :
    collapseGo true (sanitizeBody v) = sanitizeBody v :=
  (collapseGo_fix (sanitizeBody v) (sanitizeBody_mem v) (sanitizeBody_chain v)).2
    (sanitizeBody_headOK v)

theorem sanitizeBody_of_sanitized (v : String) :
    sanitizeBody (sanitize_table_name v) =
      if sanitizeBody v = [] then "events".data
      else "events_".data ++ sanitizeBody v := by
  have hmap : (sanitize_table_name v).data.map asciiToLower =
      "events_".data ++ sanitizeBody v := by
    have hdata : (sanitize_table_name v).data = "events_".data ++ sanitizeBody v := by
      show ("events_" ++ String.mk (sanitizeBody v)).data = _
      rw [String.data_append]
    have hlit : "events_".data.map asciiToLower = "events_".data := by decide
    rw [hdata, List.map_append, hlit,
        map_asciiToLower_fix (sanitizeBody v) (sanitizeBody_mem v)]
  have hcol : collapseRuns ("events_".data ++ sanitizeBody v) =
      "events_".data ++ sanitizeBody v := by
    show collapseGo false ('e' :: 'v' :: 'e' :: 'n' :: 't' :: 's' :: '_'
      :: sanitizeBody v) = _
    rw [collapseGo_cons_alnum _ _ _ (by decide), collapseGo_cons_alnum _ _ _ (by decide),
        collapseGo_cons_alnum _ _ _ (by decide), collapseGo_cons_alnum _ _ _ (by decide),
        collapseGo_cons_alnum _ _ _ (by decide), collapseGo_cons_alnum _ _ _ (by decide),
        collapseGo_cons_other_false _ _ (by decide),
        collapseGo_true_fix_of_sanitizeBody v]
    rfl
  have hstrip : stripUS ("events_".data ++ sanitizeBody v) =
      if sanitizeBody v = [] then "events".data
      else "events_".data ++ sanitizeBody v := by
    rcases htnil : sanitizeBody v with _ | ⟨h0, t'⟩
    · rw [if_pos rfl, List.append_nil]
      decide
    · rw [if_neg (by simp)]
      rw [← htnil]
      have hrev_ne : (sanitizeBody v).reverse ≠ [] := by
        rw [htnil]; simp
      rcases hrev : (sanitizeBody v).reverse with _ | ⟨r0, rr⟩
      · exact absurd hrev hrev_ne
      · have hr0 : (sanitizeBody v).getLast? = some r0 := by
          rw [← List.head?_reverse, hrev, List.head?_cons]
        have hr0ne : r0 ≠ '_' := sanitizeBody_lastOK v r0 hr0
        have hr0us : ¬ isUS r0 = true := by
          simp [isUS, hr0ne]
        have hdt : dropTrailingUS ("events_".data ++ sanitizeBody v) =
            "events_".data ++ sanitizeBody v := by
          show (("events_".data ++ sanitizeBody v).reverse.dropWhile isUS).reverse = _
          rw [List.reverse_append, hrev, List.cons_append,
              List.dropWhile_cons_of_neg hr0us, ← List.cons_append, ← hrev,
              ← List.reverse_append, List.reverse_reverse]
        show (dropTrailingUS ("events_".data ++ sanitizeBody v)).dropWhile isUS = _
        rw [hdt]
        show List.dropWhile isUS ('e' :: ('v' :: 'e' :: 'n' :: 't' :: 's' :: '_'
          :: sanitizeBody v)) = _
        rw [List.dropWhile_cons_of_neg (by decide)]
        rfl
  show stripUS (collapseRuns ((sanitize_table_name v).data.map asciiToLower)) = _
  rw [hmap, hcol, hstrip]

theorem sanitize_length (v : String) :
    (sanitize_table_name v).length = 7 + (sanitizeBody v).length := by
  show ("events_" ++ String.mk (sanitizeBody v)).length = _
  rw [String.length_append]
  rfl

/-! ## C2: store-name derivation -/

/-- Claim C2 (counterexample): `sanitize_table_name` is *not* idempotent —
applying it to its own output for `"Nowadays"` prepends the namespace
prefix a second time instead of returning the output unchanged. -/
theorem c2_not_idempotent_at_nowadays :
    sanitize_table_name (sanitize_table_name "Nowadays") ≠
      sanitize_table_name "Nowadays" := by
  decide

/-- Claim C2 (amended): store-name derivation is a deterministic pure
function with `"Nowadays" ↦ "events_nowadays"` and
`"Public Records" ↦ "events_public_records"`, but it is *never* idempotent:
for every venue-name string, applying the derivation to its own output
prepends the `events_` namespace token again, yielding a strictly different
(longer) name. -/
theorem c2_sanitize_deterministic_not_idempotent (v : String) :
    sanitize_table_name "Nowadays" = "events_nowadays" ∧
    sanitize_table_name "Public Records" = "events_public_records" ∧
    sanitize_table_name (sanitize_table_name v) ≠ sanitize_table_name v := by
  refine ⟨by decide, by decide, fun heq => ?_⟩
  have hlen := congrArg String.length heq
  rw [sanitize_length, sanitize_length, sanitizeBody_of_sanitized] at hlen
  by_cases h0 : sanitizeBody v = []
  · rw [if_pos h0, h0] at hlen
    have h6 : ("events".data).length = 6 := by decide
    rw [h6] at hlen
    simp at hlen
  · rw [if_neg h0, List.length_append] at hlen
    have h7 : ("events_".data).length = 7 := by decide
    rw [h7] at hlen
    omega

theorem c2_sanitize_witness :
    sanitize_table_name "Public Records" = "events_public_records" ∧
    sanitize_table_name (sanitize_table_name "Public Records") ≠
      sanitize_table_name "Public Records" :=
  ⟨(c2_sanitize_deterministic_not_idempotent "Public Records").2.1,
   (c2_sanitize_deterministic_not_idempotent "Public Records").2.2⟩

/-! ## C10: table-name character safety -/

/-- Claim C10: for every input string, `sanitize_table_name` returns the
fixed prefix `events_` followed only by lowercase letters, digits, and
underscores, so the table name interpolated into the SQL statement text of
`save_events` can never contain quoting or punctuation characters. -/
theorem c10_table_name_charset (s : String) :
    sanitize_table_name s = "events_" ++ String.mk (sanitizeBody s) ∧
    ∀ c ∈ (sanitize_table_name s).data, isTableNameChar c = true := by
  refine ⟨rfl, fun c hc => ?_⟩
  have hc' : c ∈ "events_".data ++ sanitizeBody s := by
    rw [show (sanitize_table_name s).data = "events_".data ++ sanitizeBody s
        from String.data_append "events_" (String.mk (sanitizeBody s))] at hc
    exact hc
  rcases List.mem_append.mp hc' with h | h
  · clear hc hc'
    revert h
    revert c
    decide
  · rcases sanitizeBody_mem s c h with h' | h'
    · simp [isTableNameChar, h']
    · subst h'
      decide

theorem c10_table_name_charset_witness :
    sanitize_table_name "Baby.s All Right" =
      "events_" ++ String.mk (sanitizeBody "Baby.s All Right") ∧
    isTableNameChar 'b' = true :=
  ⟨(c10_table_name_charset "Baby.s All Right").1,
   (c10_table_name_charset "Baby.s All Right").2 'b' (by decide)⟩

/-! ## C5: normalization totality and documented defaults -/

/-- Claim C5: the structured-API normalization is total with documented
defaults — `parse_events` maps each raw event through the per-event
normalizer (so a record is produced for every raw event, whatever optional
fields are missing), and for every raw event: a missing or empty artist
list yields `performers = ""`, a missing `pick` (or a `pick` without a
blurb) yields `description = ""`, a present non-empty `contentUrl` is
prefixed with the source's base URL, and a missing `contentUrl` or
`flyerFront` yields an empty string for that field. -/
theorem c5_normalize_defaults (r : RAResponse) (v : RAVenue)
    (hv : r.venue = some v) (vn va : String) (e : RawEvent) :
    parse_events r =
      (v.events.getD []).map
        (normalizeRAEvent (v.name.getD "") (v.address.getD "")) ∧
    ((e.artists = none ∨ e.artists = some []) →
      (normalizeRAEvent vn va e).performers = "") ∧
    (e.pick = none → (normalizeRAEvent vn va e).description = "") ∧
    (∀ p, e.pick = some p → p.blurb = none →
      (normalizeRAEvent vn va e).description = "") ∧
    (∀ u, e.contentUrl = some u → u ≠ "" →
      (normalizeRAEvent vn va e).url = "https://ra.co" ++ u) ∧
    (e.contentUrl = none → (normalizeRAEvent vn va e).url = "") ∧
    (e.flyerFront = none → (normalizeRAEvent vn va e).flyer_url = "") := by
  refine ⟨?_, ?_, ?_, ?_, ?_, ?_, ?_⟩
  · simp [parse_events, hv]
  · rintro (h | h) <;> simp [normalizeRAEvent, h] <;> rfl
  · intro h
    simp [normalizeRAEvent, h]
  · intro p hp hb
    simp [normalizeRAEvent, hp, hb]
  · intro u hu hne
    have hbe : (u == "") = false := beq_eq_false_iff_ne.mpr hne
    simp [normalizeRAEvent, hu, truthyStr, hbe]
  · intro h
    simp [normalizeRAEvent, h, truthyStr]
  · intro h
    simp [normalizeRAEvent, h]

theorem c5_normalize_defaults_witness :
    parse_events sampleResponse =
      [normalizeRAEvent "Nowadays" "56-06 Cooper Ave" rawEventBare] ∧
    (normalizeRAEvent "Nowadays" "56-06 Cooper Ave" rawEventBare).performers = "" ∧
    (normalizeRAEvent "Nowadays" "56-06 Cooper Ave" rawEventBare).description = "" ∧
    (normalizeRAEvent "Nowadays" "56-06 Cooper Ave" rawEventBare).url = "" ∧
    (normalizeRAEvent "Nowadays" "56-06 Cooper Ave" rawEventBare).flyer_url = "" ∧
    (normalizeRAEvent "Nowadays" "56-06 Cooper Ave" rawEventRelUrl).url =
      "https://ra.co" ++ "/events/2100" := by
  have H := c5_normalize_defaults sampleResponse sampleVenue rfl
    "Nowadays" "56-06 Cooper Ave" rawEventBare
  have H2 := c5_normalize_defaults sampleResponse sampleVenue rfl
    "Nowadays" "56-06 Cooper Ave" rawEventRelUrl
  exact ⟨H.1, H.2.1 (Or.inl rfl), H.2.2.1 rfl, H.2.2.2.2.2.1 rfl,
         H.2.2.2.2.2.2 rfl,
         H2.2.2.2.2.1 "/events/2100" rfl (by decide)⟩
